import Mathlib

/-!
Shallow embedding of the `ts2mp4` conversion pipeline (Python) in Lean 4.

Each definition translates one function or validator of the source tree
(`ts2mp4/media_info.py`, `ts2mp4/video_file.py`, `ts2mp4/ts2mp4.py`,
`ts2mp4/initial_converter.py`, `ts2mp4/audio_reencoder.py`,
`ts2mp4/stream_integrity.py`, `ts2mp4/hashing.py`, `ts2mp4/cli.py`).
External collaborators (ffprobe, ffmpeg, the stream hasher) are passed in as
explicit function parameters; fallible Python code is modelled with
`Except String` (the string is the exception message), and Python exception
classes that matter for control flow are modelled by an explicit error type.
-/

namespace Ts2mp4

/-- One probed elementary stream (`media_info.Stream`): a frozen pydantic
model with an index and optional codec attributes.  Python `int` fields are
modelled as `Nat` (ffprobe reports non-negative values).  Equality is
structural, as for frozen pydantic models. -/
structure Stream where
  index : Nat
  codecType : Option String := none
  codecName : Option String := none
  profile : Option String := none
  bitRate : Option Nat := none
  channels : Option Nat := none
  sampleRate : Option Nat := none
deriving DecidableEq, Repr

/-- `media_info.MediaInfo`: the validated, ordered stream list of one file. -/
structure MediaInfo where
  streams : List Stream
deriving DecidableEq, Repr

/-- The sort key relation used by `MediaInfo.sort_streams` and by the
plan builders (Python `sorted(..., key=lambda s: s.index)`). -/
def streamIndexLE (a b : Stream) : Prop := a.index ≤ b.index

instance : DecidableRel streamIndexLE := fun a b => Nat.decLe a.index b.index

instance : IsTotal Stream streamIndexLE := ⟨fun a b => Nat.le_total a.index b.index⟩

instance : IsTrans Stream streamIndexLE := ⟨fun _ _ _ h h' => Nat.le_trans h h'⟩

/-- `MediaInfo.sort_streams` / `sorted(..., key=lambda s: s.index)`:
a stable ascending sort by `index`, modelled by stable insertion sort. -/
def sortStreamsByIndex (streams : List Stream) : List Stream :=
  streams.insertionSort streamIndexLE

/-- `MediaInfo.validate_stream_indices`: walk the sorted tuple and require
`stream.index == i` at every position `i`; on the first failure raise
`ValueError(f"Stream index {stream.index} does not match tuple index {i}")`. -/
def validateStreamIndices (streams : List Stream) : Except String Unit :=
  go streams 0
where
  go : List Stream → Nat → Except String Unit
    | [], _ => .ok ()
    | s :: rest, i =>
      if s.index ≠ i then
        .error ("Stream index " ++ Nat.repr s.index ++
          " does not match tuple index " ++ Nat.repr i)
      else go rest (i + 1)

/-- Constructing a `MediaInfo` from a probed stream list (the path taken by
`get_media_info` → `MediaInfo.model_validate`): the `mode="before"` validator
sorts the list by index, then `validate_stream_indices` checks contiguity. -/
def mkMediaInfo (probed : List Stream) : Except String MediaInfo :=
  let sorted := sortStreamsByIndex probed
  match validateStreamIndices sorted with
  | .error e => .error e
  | .ok _ => .ok ⟨sorted⟩

/-- `Path.name`: the final component of a path string. -/
def pathName (p : String) : String := (p.splitOn "/").getLastD p

/-- `video_file.VideoFile`: a filesystem path together with its probed
stream list.  Probing (`get_media_info`, an external ffprobe call) is
modelled by storing the probe result in the value. -/
structure VideoFile where
  path : String
  streams : List Stream
deriving DecidableEq, Repr

/-- `VideoFile._is_valid_audio_stream`: an audio stream is valid iff
`channels is not None and channels > 0`; audio-ness (`isinstance(stream,
AudioStream)`) is modelled by `codec_type == "audio"`. -/
def isValidAudioStream (s : Stream) : Bool :=
  s.codecType == some "audio" &&
    (match s.channels with
     | some c => decide (0 < c)
     | none => false)

/-- `VideoFile._is_valid_video_stream` returns `True` for every video
stream; video-ness is modelled by `codec_type == "video"`. -/
def isValidVideoStream (s : Stream) : Bool :=
  s.codecType == some "video"

/-- `VideoFile.valid_audio_streams`. -/
def validAudioStreams (f : VideoFile) : List Stream :=
  f.streams.filter isValidAudioStream

/-- `VideoFile.valid_video_streams`. -/
def validVideoStreams (f : VideoFile) : List Stream :=
  f.streams.filter isValidVideoStream

/-- `VideoFile.valid_streams`: valid video streams followed by valid audio
streams. -/
def validStreams (f : VideoFile) : List Stream :=
  validVideoStreams f ++ validAudioStreams f

/-- `video_file.ConversionType = Literal["converted", "copied"]`: the
transformation-kind type of the source, as a closed enumeration. -/
inductive ConversionType where
  | converted
  | copied
deriving DecidableEq, Repr

instance : Fintype ConversionType :=
  ⟨⟨{ConversionType.converted, ConversionType.copied}, by decide⟩, fun c => by
    cases c <;> decide⟩

/-- `video_file.StreamSource`: the provenance record of one output stream.
The source revisions store either the source stream object
(`source_stream`) or its index (`source_stream_index`); we store the stream
object, from which the index is derived (`sourceStream.index`). -/
structure StreamSource where
  sourceVideoFile : VideoFile
  sourceStream : Stream
  conversionType : ConversionType
deriving DecidableEq, Repr

/-- `video_file.is_video_stream_source`. -/
def isVideoStreamSource (src : StreamSource) : Bool :=
  src.sourceStream.codecType == some "video"

/-- `video_file.is_audio_stream_source`. -/
def isAudioStreamSource (src : StreamSource) : Bool :=
  src.sourceStream.codecType == some "audio"

/-- `StreamSources.video_stream_sources` (a `frozenset`, modelled as a
deduplicated list: emptiness, membership and cardinality agree). -/
def videoStreamSources (srcs : List StreamSource) : List StreamSource :=
  (srcs.filter isVideoStreamSource).dedup

/-- `StreamSources.audio_stream_sources` (a `frozenset`). -/
def audioStreamSources (srcs : List StreamSource) : List StreamSource :=
  (srcs.filter isAudioStreamSource).dedup

/-- `StreamSources.source_video_files` (a `frozenset` of `VideoFile`
values; two `VideoFile` values are interchangeable on resolved path
equality, so the set is modelled by the deduplicated list of paths). -/
def sourceVideoFilePaths (srcs : List StreamSource) : List String :=
  (srcs.map (fun s => s.sourceVideoFile.path)).dedup

/-- `video_file.ConvertedVideoFile`: a `VideoFile` plus one `StreamSource`
per output stream. -/
structure ConvertedVideoFile extends VideoFile where
  streamSources : List StreamSource
deriving DecidableEq, Repr

/-- Constructing a `ConvertedVideoFile`:
`ConvertedVideoFile.validate_stream_counts` raises `ValueError` when the
number of stream sources differs from the number of probed streams of the
file. -/
def mkConvertedVideoFile (path : String) (probedStreams : List Stream)
    (sources : List StreamSource) : Except String ConvertedVideoFile :=
  if sources.length ≠ probedStreams.length then
    .error ("Mismatch in stream counts for " ++ pathName path ++ ": " ++
      Nat.repr sources.length ++ " sources, " ++
      Nat.repr probedStreams.length ++ " output streams.")
  else
    .ok ⟨⟨path, probedStreams⟩, sources⟩

/-- The conversion type assigned to a stream by the initial plan builder
(`_build_stream_sources`): `CONVERTED` for video, `COPIED` otherwise. -/
def initialConversionTag (s : Stream) : ConversionType :=
  if s.codecType == some "video" then .converted else .copied

/-- `StreamSourcesForInitialConversion` validation
(`initial_converter.py` / `ts2mp4.py`), with the checks in source order:
video presence, audio presence, all video `CONVERTED`, all audio `COPIED`,
only video/audio types, a single source file, unique source streams. -/
def validateStreamSourcesForInitialConversion
    (srcs : List StreamSource) : Except String Unit :=
  if videoStreamSources srcs = [] then
    .error "At least one video stream is required."
  else if audioStreamSources srcs = [] then
    .error "At least one audio stream is required."
  else if ¬ (videoStreamSources srcs).all
      (fun s => s.conversionType == .converted) then
    .error "All video streams must be converted."
  else if ¬ (audioStreamSources srcs).all
      (fun s => s.conversionType == .copied) then
    .error "All audio streams must be copied."
  else if ¬ srcs.all (fun s =>
      s.sourceStream.codecType == some "video" ||
      s.sourceStream.codecType == some "audio") then
    .error "Stream sources must only contain video or audio streams."
  else if (sourceVideoFilePaths srcs).length ≠ 1 then
    .error "All stream sources must originate from the same VideoFile."
  else if ((srcs.map (fun s => s.sourceStream)).dedup).length < srcs.length then
    .error "Source streams must be unique."
  else
    .ok ()

/-- `_build_stream_sources` (initial conversion plan): enumerate the valid
streams sorted by index, keep video/audio, emit a `CONVERTED` source for
video and a `COPIED` source for audio, then validate the collection. -/
def buildStreamSourcesForInitialConversion
    (input : VideoFile) : Except String (List StreamSource) :=
  let srcs :=
    ((sortStreamsByIndex (validStreams input)).filter (fun s =>
        s.codecType == some "video" || s.codecType == some "audio")).map
      (fun s => StreamSource.mk input s (initialConversionTag s))
  match validateStreamSourcesForInitialConversion srcs with
  | .error e => .error e
  | .ok _ => .ok srcs

/-- `ts2mp4._build_ffmpeg_args_from_stream_sources` (initial conversion):
fixed input options, one `-map 0:<source_stream_index>` per source in
order, then the fixed output options.  `source_video_file` is the first
source's file (the collection is validated non-empty before use; an empty
collection is given the empty path). -/
def buildFfmpegArgsForInitialConversion (srcs : List StreamSource)
    (outputPath : String) (crf : Nat) (preset : String) : List String :=
  ["-hide_banner", "-nostats", "-fflags", "+discardcorrupt", "-y", "-i",
    ((srcs.head?.map (fun s => s.sourceVideoFile.path)).getD "")]
  ++ srcs.flatMap (fun s => ["-map", "0:" ++ Nat.repr s.sourceStream.index])
  ++ ["-f", "mp4", "-vsync", "1", "-vf", "bwdif", "-codec:v", "libx265",
      "-crf", Nat.repr crf, "-preset", preset, "-codec:a", "copy",
      "-bsf:a", "aac_adtstoasc", outputPath]

/-- Modelled from the spec: `compare_stream_hashes` is imported by
`audio_reencoder.py` from `stream_integrity.py` but is absent from that
module in the tree; per §4.2/§4.3 it compares the content hashes of the two
decoded streams and treats a hash-computation failure on either side as a
mismatch.  The external `StreamHasher(path, stream) → digest | error`
collaborator is the `hasher` parameter (`none` = hashing failed). -/
def compareStreamHashes (hasher : String → Stream → Option String)
    (inputVideo outputVideo : VideoFile)
    (inputStream outputStream : Stream) : Bool :=
  match hasher inputVideo.path inputStream,
        hasher outputVideo.path outputStream with
  | some h1, some h2 => h1 == h2
  | _, _ => false

/-- The dictionary `original_encoded_stream_mapping` of
`_build_stream_sources_for_audio_re_encoding`: maps each recorded
`source_stream` of the encoded file's provenance to the encoded file's
stream at the same position (`encoded_file.media_info.streams[i]`). -/
def originalEncodedStreamMapping
    (encoded : ConvertedVideoFile) : List (Stream × Stream) :=
  List.zip (encoded.streamSources.map (fun s => s.sourceStream))
    encoded.streams

/-- Python `dict` lookup over the association list built by a dict
comprehension: the last binding for a key wins. -/
def dictLookup (pairs : List (Stream × Stream)) (k : Stream) : Option Stream :=
  ((pairs.filter (fun p => p.1 = k)).getLast?).map (fun p => p.2)

/-- The loop body of `_build_stream_sources_for_audio_re_encoding` for one
original valid stream: no match in the mapping is a fatal "missing a
required stream" error; a video stream is always `COPIED` from the encoded
file; an audio stream is `COPIED` from the encoded file when the hashes
match and `CONVERTED` from the original otherwise; any other codec type is
silently skipped (`none`). -/
def streamSourceForAudioReEncoding (hasher : String → Stream → Option String)
    (original : VideoFile) (encoded : ConvertedVideoFile)
    (s : Stream) : Except String (Option StreamSource) :=
  match dictLookup (originalEncodedStreamMapping encoded) s with
  | none =>
    .error ("Encoded file " ++ pathName encoded.path ++
      " is missing a required stream from the original " ++
      pathName original.path ++ ".")
  | some m =>
    if s.codecType == some "video" then
      .ok (some ⟨encoded.toVideoFile, m, .copied⟩)
    else if s.codecType == some "audio" then
      if compareStreamHashes hasher original encoded.toVideoFile s m then
        .ok (some ⟨encoded.toVideoFile, m, .copied⟩)
      else
        .ok (some ⟨original, s, .converted⟩)
    else
      .ok none

/-- The loop of `_build_stream_sources_for_audio_re_encoding` over the
original file's valid streams in index order. -/
def buildRepairSourcesLoop (hasher : String → Stream → Option String)
    (original : VideoFile) (encoded : ConvertedVideoFile) :
    List Stream → Except String (List StreamSource)
  | [] => .ok []
  | s :: rest =>
    match streamSourceForAudioReEncoding hasher original encoded s with
    | .error e => .error e
    | .ok none => buildRepairSourcesLoop hasher original encoded rest
    | .ok (some src) =>
      match buildRepairSourcesLoop hasher original encoded rest with
      | .error e => .error e
      | .ok srcs => .ok (src :: srcs)

/-- `StreamSourcesForAudioReEncoding.__new__` validation, with the checks
in source order.  `frozenset`s are modelled by deduplicated lists and
`VideoFile` set membership/equality by resolved path equality. -/
def validateStreamSourcesForAudioReEncoding
    (srcs : List StreamSource) : Except String Unit :=
  if srcs.length ≠ (videoStreamSources srcs).length +
      (audioStreamSources srcs).length then
    .error "Only video and audio streams are supported."
  else if videoStreamSources srcs = [] then
    .error "At least one video stream is required."
  else if audioStreamSources srcs = [] then
    .error "At least one audio stream is required."
  else if ¬ (videoStreamSources srcs).all
      (fun s => s.conversionType == .copied) then
    .error "All video streams must be copied."
  else
    let copiedSources := srcs.filter (fun s => s.conversionType == .copied)
    let convertedSources := srcs.filter (fun s => s.conversionType == .converted)
    if copiedSources = [] then
      .error "At least one stream must be copied."
    else if (sourceVideoFilePaths copiedSources).length ≠ 1 then
      .error "All copied streams must come from the same encoded file."
    else if convertedSources ≠ [] then
      if ¬ convertedSources.all
          (fun s => s.sourceStream.codecType == some "audio") then
        .error "Only audio streams can be converted."
      else if (sourceVideoFilePaths convertedSources).length ≠ 1 then
        .error "All converted streams must come from the same original file."
      else if (sourceVideoFilePaths convertedSources).head? =
          (sourceVideoFilePaths copiedSources).head? then
        .error "Original and encoded files cannot be the same when re-encoding."
      else
        .ok ()
    else
      .ok ()

/-- `_build_stream_sources_for_audio_re_encoding`: run the loop over the
sorted valid streams of the original, then validate the collection as a
`StreamSourcesForAudioReEncoding`. -/
def buildStreamSourcesForAudioReEncoding
    (hasher : String → Stream → Option String)
    (original : VideoFile) (encoded : ConvertedVideoFile) :
    Except String (List StreamSource) :=
  match buildRepairSourcesLoop hasher original encoded
      (sortStreamsByIndex (validStreams original)) with
  | .error e => .error e
  | .ok srcs =>
    match validateStreamSourcesForAudioReEncoding srcs with
    | .error e => .error e
    | .ok _ => .ok srcs

/-- `_build_audio_convert_args`: codec-specific re-encode arguments for one
`CONVERTED` audio stream.  Only the `aac` codec is supported
(`NotImplementedError` otherwise); `libfdk_aac` is preferred when the
transcoder reports it available. -/
def buildAudioConvertArgs (libfdkAvailable : Bool) (src : StreamSource)
    (outputStreamIndex : Nat) : Except String (List String) :=
  match src.sourceStream.codecName with
  | some "aac" =>
    let codecName := if libfdkAvailable then "libfdk_aac" else "aac"
    .ok (["-codec:" ++ Nat.repr outputStreamIndex, codecName]
      ++ (match src.sourceStream.sampleRate with
          | some r => ["-ar:" ++ Nat.repr outputStreamIndex, Nat.repr r]
          | none => [])
      ++ (match src.sourceStream.channels with
          | some c => ["-ac:" ++ Nat.repr outputStreamIndex, Nat.repr c]
          | none => [])
      ++ (match src.sourceStream.profile with
          | some p => ["-profile:" ++ Nat.repr outputStreamIndex,
              if p = "LC" then "aac_low" else p]
          | none => [])
      ++ (match src.sourceStream.bitRate with
          | some b => ["-b:" ++ Nat.repr outputStreamIndex, Nat.repr b]
          | none => [])
      ++ ["-bsf:" ++ Nat.repr outputStreamIndex, "aac_adtstoasc"])
  | _ => .error "Re-encoding is currently only supported for aac audio codec."

/-- `dict.fromkeys` over a key list: the unique keys in first-occurrence
order. -/
def orderedKeys : List String → List String :=
  go []
where
  go (seen : List String) : List String → List String
    | [] => []
    | x :: xs => if x ∈ seen then go seen xs else x :: go (x :: seen) xs

/-- The per-stream loop of the repair
`_build_ffmpeg_args_from_stream_sources`: for output stream `i`, a
`-map <input_index>:<source_stream_index>` pair followed by the codec
arguments (`copy` for `COPIED`, re-encode arguments for a `CONVERTED`
audio stream, `ValueError` otherwise). -/
def buildRepairStreamArgs (libfdkAvailable : Bool) (inputFiles : List String) :
    List StreamSource → Nat → Except String (List String)
  | [], _ => .ok []
  | src :: rest, i =>
    let mapArgs := ["-map",
      Nat.repr (inputFiles.indexOf src.sourceVideoFile.path) ++ ":" ++
        Nat.repr src.sourceStream.index]
    let codecArgs : Except String (List String) :=
      if src.conversionType == .copied then
        .ok ["-codec:" ++ Nat.repr i, "copy"]
      else if src.sourceStream.codecType == some "audio" then
        buildAudioConvertArgs libfdkAvailable src i
      else
        .error ("Invalid conversion requested for stream type '" ++
          (src.sourceStream.codecType.getD "None") ++ "'.")
    match codecArgs with
    | .error e => .error e
    | .ok cargs =>
      match buildRepairStreamArgs libfdkAvailable inputFiles rest (i + 1) with
      | .error e => .error e
      | .ok rargs => .ok (mapArgs ++ cargs ++ rargs)

/-- `audio_reencoder._build_ffmpeg_args_from_stream_sources`: fixed input
options, one `-i` per unique input file in first-occurrence order, the
per-stream `-map`/codec arguments, then the output options. -/
def buildFfmpegArgsForAudioReEncoding (libfdkAvailable : Bool)
    (srcs : List StreamSource) (outputPath : String) :
    Except String (List String) :=
  let inputFiles := orderedKeys (srcs.map (fun s => s.sourceVideoFile.path))
  match buildRepairStreamArgs libfdkAvailable inputFiles srcs 0 with
  | .error e => .error e
  | .ok streamArgs =>
    .ok (["-hide_banner", "-nostats", "-fflags", "+discardcorrupt", "-y"]
      ++ inputFiles.flatMap (fun f => ["-i", f])
      ++ streamArgs
      ++ ["-f", "mp4", outputPath])

/-- Modelled from the spec: `verify_copied_streams` is imported by
`audio_reencoder.py` from `stream_integrity.py` but is absent from that
module in the tree; per §4.2 it verifies, for every `(output stream,
source)` pair whose source is `COPIED`, that the content hashes of the
output stream and its source stream agree, failing on the first mismatch,
and succeeds trivially when no `COPIED` stream exists. -/
def verifyCopiedStreams (hasher : String → Stream → Option String)
    (file : ConvertedVideoFile) : Except String Unit :=
  go file.path (file.streams.zip file.streamSources)
where
  go (outPath : String) : List (Stream × StreamSource) → Except String Unit
    | [] => .ok ()
    | (outStream, src) :: rest =>
      match src.conversionType with
      | .converted => go outPath rest
      | .copied =>
        if compareStreamHashes hasher src.sourceVideoFile
            ⟨outPath, []⟩ src.sourceStream outStream then
          go outPath rest
        else
          .error "Copied stream integrity verification failed."

/-- One observable side effect of the repair planner: invoking the
transcoder subprocess. -/
inductive RepairEffect where
  | execFfmpeg (args : List String)
deriving DecidableEq, Repr

/-- `re_encode_mismatched_audio_streams`: build the repair stream sources;
if no source is `CONVERTED`, return `none` with no side effect; otherwise
build the ffmpeg arguments, invoke the transcoder (the `ffmpegExit`
collaborator gives its exit code, `probe` the probed stream list of the
written output), construct the `AudioReEncodedVideoFile`, and verify the
copied streams.  The quality-metric pass is logging only and never affects
the result. -/
def reEncodeMismatchedAudioStreams (hasher : String → Stream → Option String)
    (libfdkAvailable : Bool) (ffmpegExit : List String → Nat)
    (probe : String → List Stream) (original : VideoFile)
    (encoded : ConvertedVideoFile) (outputFile : String) :
    Except String (Option ConvertedVideoFile) × List RepairEffect :=
  match buildStreamSourcesForAudioReEncoding hasher original encoded with
  | .error e => (.error e, [])
  | .ok srcs =>
    if ¬ srcs.any (fun s => s.conversionType == .converted) then
      (.ok none, [])
    else
      match buildFfmpegArgsForAudioReEncoding libfdkAvailable srcs outputFile with
      | .error e => (.error e, [])
      | .ok args =>
        if ffmpegExit args ≠ 0 then
          (.error ("ffmpeg failed with return code " ++
            Nat.repr (ffmpegExit args)), [.execFfmpeg args])
        else
          match mkConvertedVideoFile outputFile (probe outputFile) srcs with
          | .error e => (.error e, [.execFfmpeg args])
          | .ok out =>
            match verifyCopiedStreams hasher out with
            | .error e => (.error e, [.execFfmpeg args])
            | .ok _ => (.ok (some out), [.execFfmpeg args])

/-- `hashing._get_stream_md5_cached`'s cache key: resolved path,
modification time, size and the stream object.  The float `st_mtime` is
only ever compared for equality (as a dictionary key), so it is modelled
by an integer timestamp. -/
structure StreamHashKey where
  path : String
  mtime : Int
  size : Nat
  stream : Stream
deriving DecidableEq, Repr

/-- `hashing._get_stream_md5_cached` with the `functools.cache` dictionary
made explicit: on a hit return the cached digest without invoking the
external hasher; on a miss invoke the hasher once and record the digest.
Returns the digest, the updated cache, and the number of external hash
invocations performed by this call. -/
def getStreamMd5Cached (hasher : StreamHashKey → String)
    (cache : List (StreamHashKey × String)) (k : StreamHashKey) :
    String × List (StreamHashKey × String) × Nat :=
  match cache.find? (fun e => e.1 == k) with
  | some e => (e.2, cache, 0)
  | none =>
    let d := hasher k
    (d, cache ++ [(k, d)], 1)

/-- The Python exception classes that matter for the orchestrator's
control flow. -/
inductive PyErrorKind where
  | runtimeError
  | streamIntegrityError
  | notImplementedError
  | valueError
deriving DecidableEq, Repr

/-- A raised Python exception: its class and message. -/
structure PyError where
  kind : PyErrorKind
  msg : String
deriving DecidableEq, Repr

/-- Whether `except RuntimeError` catches the exception.  In Python,
`RuntimeError` catches itself and its subclass `NotImplementedError`;
`StreamIntegrityError` subclasses `Exception` directly and `ValueError` is
a sibling, so neither is caught. -/
def caughtByExceptRuntimeError (e : PyError) : Bool :=
  match e.kind with
  | .runtimeError => true
  | .notImplementedError => true
  | .streamIntegrityError => false
  | .valueError => false

/-- The pairwise hash comparison loop of `stream_integrity.verify_streams`
(plain-`VideoFile` branch): zip the type-filtered input and output streams
and raise `StreamIntegrityError` on the first digest mismatch.  The
`hasher` collaborator is `get_stream_md5`. -/
def verifyStreamsPlainLoop (hasher : String → Stream → String)
    (inputPath outputPath : String) (streamType : String) :
    List (Stream × Stream) → Except PyError Unit
  | [] => .ok ()
  | (sIn, sOut) :: rest =>
    if hasher inputPath sIn ≠ hasher outputPath sOut then
      .error ⟨.streamIntegrityError,
        "MD5 hash mismatch for " ++ streamType ++ " stream (input: " ++
          Nat.repr sIn.index ++ ", output: " ++ Nat.repr sOut.index ++ ")."⟩
    else
      verifyStreamsPlainLoop hasher inputPath outputPath streamType rest

/-- `stream_integrity.verify_streams` for a plain (non-`ConvertedVideoFile`)
input file — the branch taken by the orchestrator, which passes the
original input file: compare the type-filtered streams positionally and
raise `StreamIntegrityError` on a count mismatch or any hash mismatch. -/
def verifyStreamsPlain (hasher : String → Stream → String)
    (input output : VideoFile) (streamType : String) : Except PyError Unit :=
  let ins := input.streams.filter (fun s => s.codecType == some streamType)
  let outs := output.streams.filter (fun s => s.codecType == some streamType)
  if ins.length ≠ outs.length then
    .error ⟨.streamIntegrityError,
      "Mismatch in number of " ++ streamType ++ " streams. Input has " ++
        Nat.repr ins.length ++ ", output has " ++ Nat.repr outs.length ++ "."⟩
  else
    verifyStreamsPlainLoop hasher input.path output.path streamType
      (ins.zip outs)

/-- The verification-and-repair phase of the orchestrator `ts2mp4`
(after a successful initial conversion): run `verify_streams`; on success
finish with no repair.  The `try/except RuntimeError` block runs the
repair branch (whose outcome, including the temp-file promotion, is the
`repairOutcome` collaborator) only for exceptions that `except
RuntimeError` catches; any other exception propagates unhandled.  Returns
the final outcome and the number of repair-planner invocations. -/
def ts2mp4VerifyAndRepair (hasher : String → Stream → String)
    (input : VideoFile) (outputFile : ConvertedVideoFile)
    (repairOutcome : Except PyError Unit) : Except PyError Unit × Nat :=
  match verifyStreamsPlain hasher input outputFile.toVideoFile "audio" with
  | .ok _ => (.ok (), 0)
  | .error e =>
    if caughtByExceptRuntimeError e then
      (repairOutcome, 1)
    else
      (.error e, 0)

/-- The observable side effects of the CLI `main` command.  Log-file setup
and log writes go to the logging collaborator (out of scope per the spec);
`runPipeline` is the `ts2mp4(...)` call that writes the `.mp4.part` file,
and `replaceFile` is the `mp4_part.replace(mp4)` promotion. -/
inductive CliEffect where
  | setLogfile (path : String)
  | logMsg (msg : String)
  | runPipeline (inputPath outputPath : String)
  | replaceFile (src dst : String)
deriving DecidableEq, Repr

/-- `Path.with_suffix`: drop the final extension of the path (the text
from the last dot on) and append the new suffix. -/
def withSuffix (p ext : String) : String :=
  let parts := p.splitOn "."
  (if parts.length ≤ 1 then p
   else String.intercalate "." parts.dropLast) ++ ext

/-- `cli.main`: set up the log file (defaulted from the input path and a
timestamp), log preliminary information, and skip the conversion entirely
when the target `.mp4` already exists; otherwise run the pipeline into the
`.mp4.part` path and promote it.  Any exception is converted to exit code
1 (`typer.Exit`).  `tsResolved` is the resolved input path and
`pipelineOutcome` the outcome of the `ts2mp4` call. -/
def cliMain (mp4Exists : Bool) (pipelineOutcome : Except PyError Unit)
    (tsResolved : String) (logFile : Option String) (timestamp : String) :
    Except Nat Unit × List CliEffect :=
  let logPath := logFile.getD (withSuffix tsResolved ("-" ++ timestamp) ++ ".log")
  let mp4 := withSuffix tsResolved ".mp4"
  let mp4Part := withSuffix tsResolved ".mp4.part"
  let preliminary : List CliEffect :=
    [.setLogfile logPath,
     .logMsg ("Conversion Log for " ++ pathName tsResolved),
     .logMsg ("Input File: " ++ tsResolved)]
  if mp4Exists then
    (.ok (), preliminary ++
      [.logMsg ("Output file " ++ pathName mp4 ++
        " already exists. Skipping conversion.")])
  else
    match pipelineOutcome with
    | .error _ =>
      (.error 1, preliminary ++ [.runPipeline tsResolved mp4Part])
    | .ok _ =>
      (.ok (), preliminary ++
        [.runPipeline tsResolved mp4Part,
         .logMsg "Conversion Status: Success",
         .replaceFile mp4Part mp4])

/-- The values of the `-map` options of a transcoder argument list, in
order of appearance: scanning left to right, each occurrence of the option
`"-map"` consumes the following element as its value. -/
def collectMapValues : List String → List String
  | [] => []
  | [_] => []
  | x :: y :: rest =>
    if x = "-map" then y :: collectMapValues rest
    else collectMapValues (y :: rest)

/-! ## Helper lemmas -/

theorem validateStreamIndices_go_ok_iff (l : List Stream) (i : Nat) :
    validateStreamIndices.go l i = .ok () ↔
      l.map Stream.index = List.range' i l.length := by
  induction l generalizing i with
  | nil => simp [validateStreamIndices.go]
  | cons s rest ih =>
    simp only [validateStreamIndices.go, List.map_cons, List.length_cons,
      List.range'_succ]
    by_cases h : s.index = i
    · simp [h, ih]
    · simp [h]

theorem validateStreamIndices_ok_iff (l : List Stream) :
    validateStreamIndices l = .ok () ↔
      l.map Stream.index = List.range l.length := by
  rw [validateStreamIndices, validateStreamIndices_go_ok_iff,
    List.range_eq_range']

theorem sortStreamsByIndex_perm (l : List Stream) :
    (sortStreamsByIndex l).Perm l :=
  List.perm_insertionSort _ l

theorem sortStreamsByIndex_sorted (l : List Stream) :
    (sortStreamsByIndex l).Sorted streamIndexLE :=
  List.sorted_insertionSort _ l

theorem validateStreamIndices_go_error_shape (l : List Stream) (i : Nat)
    (m : String) (h : validateStreamIndices.go l i = .error m) :
    ∃ a b, m = "Stream index " ++ Nat.repr a ++
      " does not match tuple index " ++ Nat.repr b := by
  induction l generalizing i with
  | nil => exact absurd h (by simp [validateStreamIndices.go])
  | cons s rest ih =>
    rw [validateStreamIndices.go] at h
    split at h
    · exact ⟨s.index, i, ((Except.error.injEq _ _).mp h).symm⟩
    · exact ih _ h

/-! ## Claim C2 -/

/-- Claim C2, counterexample: it is not the case that constructing a
`MediaInfo` from a probed stream list succeeds iff the stream indices are
exactly `0..n-1` in order — the constructor sorts by index first, so the
out-of-order list with indices `[1, 0]` is accepted. -/
theorem mkMediaInfo_unordered_input_refutes_in_order_iff :
    ¬ (∀ probed : List Stream, (mkMediaInfo probed).isOk = true ↔
        probed.map Stream.index = List.range probed.length) := by
  intro h
  have h2 := (h [{ index := 1 }, { index := 0 }]).mp (by decide)
  exact absurd h2 (by decide)

/-- Claim C2, amended: constructing a `MediaInfo` from a probed stream
list succeeds iff the multiset of stream indices is exactly
`{0, …, n-1}` (the constructor sorts the streams by index before
validating, so the input order is irrelevant); any gap or duplicate index
raises a construction error whose message contains "does not match". -/
theorem mkMediaInfo_ok_iff_indices_perm_range (probed : List Stream) :
    ((mkMediaInfo probed).isOk = true ↔
      (probed.map Stream.index).Perm (List.range probed.length)) ∧
    (∀ m, mkMediaInfo probed = .error m →
      ∃ a b, m = "Stream index " ++ Nat.repr a ++
        " does not match tuple index " ++ Nat.repr b) := by
  constructor
  · have hperm : ((sortStreamsByIndex probed).map Stream.index).Perm
        (probed.map Stream.index) := (sortStreamsByIndex_perm probed).map _
    have hlen : (sortStreamsByIndex probed).length = probed.length :=
      (sortStreamsByIndex_perm probed).length_eq
    rw [mkMediaInfo]
    rcases hv : validateStreamIndices (sortStreamsByIndex probed) with e | u
    · simp only [Except.isOk, Except.toBool]
      constructor
      · intro h; exact absurd h (by simp)
      · intro h
        exfalso
        have hsorted : ((sortStreamsByIndex probed).map Stream.index).Sorted
            (· ≤ ·) :=
          List.Pairwise.map Stream.index (fun _ _ hab => hab)
            (sortStreamsByIndex_sorted probed)
        have hperm2 : ((sortStreamsByIndex probed).map Stream.index).Perm
            (List.range probed.length) := hperm.trans h
        have hrange : (List.range probed.length).Sorted (· ≤ ·) :=
          (List.pairwise_lt_range _).imp Nat.le_of_lt
        have heq : (sortStreamsByIndex probed).map Stream.index =
            List.range probed.length :=
          List.eq_of_perm_of_sorted hperm2 hsorted hrange
        have hok : validateStreamIndices (sortStreamsByIndex probed) = .ok () :=
          (validateStreamIndices_ok_iff _).mpr (by rw [heq, hlen])
        rw [hv] at hok
        exact Except.noConfusion hok
    · simp only [Except.isOk, Except.toBool, true_iff]
      have heq : (sortStreamsByIndex probed).map Stream.index =
          List.range (sortStreamsByIndex probed).length :=
        (validateStreamIndices_ok_iff _).mp (by cases u; exact hv)
      rw [hlen] at heq
      exact hperm.symm.trans (heq ▸ List.Perm.refl _)
  · intro m h
    rw [mkMediaInfo] at h
    rcases hv : validateStreamIndices (sortStreamsByIndex probed) with e | u
    · rw [hv] at h
      cases h
      exact validateStreamIndices_go_error_shape _ _ _ hv
    · rw [hv] at h; exact Except.noConfusion h

/-- Claim C2, witness: the theorem applied to the gapped probed list with
indices `[0, 2]`, whose construction error is "Stream index 2 does not
match tuple index 1". -/
theorem mkMediaInfo_ok_iff_indices_perm_range_witness :
    ∃ a b, "Stream index 2 does not match tuple index 1" =
      "Stream index " ++ Nat.repr a ++ " does not match tuple index " ++
        Nat.repr b :=
  (mkMediaInfo_ok_iff_indices_perm_range
    [{ index := 0 }, { index := 2 }]).2 _ (by rfl)

/-! ## Claim C3 -/

/-- Claim C3: constructing a `ConvertedVideoFile` succeeds iff the length
of its stream-source collection equals the number of probed streams of the
file; whenever the lengths differ, construction raises an error. -/
theorem mkConvertedVideoFile_ok_iff_counts_match (path : String)
    (probedStreams : List Stream) (sources : List StreamSource) :
    ((mkConvertedVideoFile path probedStreams sources).isOk = true ↔
      sources.length = probedStreams.length) ∧
    (sources.length ≠ probedStreams.length →
      ∃ m, mkConvertedVideoFile path probedStreams sources = .error m) := by
  constructor
  · rw [mkConvertedVideoFile]
    by_cases h : sources.length = probedStreams.length
    · simp [h, Except.isOk, Except.toBool]
    · simp [h, Except.isOk, Except.toBool]
  · intro h
    rw [mkConvertedVideoFile]
    simp [h]

/-- Claim C3, witness: a one-source, zero-stream construction fails. -/
theorem mkConvertedVideoFile_ok_iff_counts_match_witness :
    ∃ m, mkConvertedVideoFile "out.mp4" []
      [⟨⟨"in.ts", []⟩, { index := 0 }, .copied⟩] = .error m :=
  (mkConvertedVideoFile_ok_iff_counts_match "out.mp4" []
    [⟨⟨"in.ts", []⟩, { index := 0 }, .copied⟩]).2 (by decide)

/-! ## Claim C7 -/

/-- Claim C7, counterexample: a collection containing a `COPIED` video
source does not always raise "All video streams must be converted." — the
audio-presence check runs first, so a lone `COPIED` video source raises
"At least one audio stream is required." instead. -/
theorem initialSources_copied_video_counterexample :
    ¬ (∀ srcs : List StreamSource,
        (∃ src ∈ srcs, isVideoStreamSource src = true ∧
          src.conversionType = ConversionType.copied) →
        validateStreamSourcesForInitialConversion srcs =
          .error "All video streams must be converted.") := by
  intro h
  have h2 := h
    [⟨⟨"a.ts", []⟩, { index := 0, codecType := some "video" }, .copied⟩]
    ⟨⟨⟨"a.ts", []⟩, { index := 0, codecType := some "video" }, .copied⟩,
      List.mem_singleton.mpr rfl, by decide, rfl⟩
  have h3 : validateStreamSourcesForInitialConversion
      [⟨⟨"a.ts", []⟩, { index := 0, codecType := some "video" }, .copied⟩] =
      .error "At least one audio stream is required." := by rfl
  rw [h3] at h2
  exact absurd ((Except.error.injEq _ _).mp h2) (by decide)

/-- Claim C7, amended: a collection with zero video sources always raises
"At least one video stream is required." (the first check); a collection
containing a `COPIED` video source raises "All video streams must be
converted." provided it also contains at least one audio source (otherwise
the earlier audio-presence check raises "At least one audio stream is
required."). -/
theorem initialSources_validation_messages (srcs : List StreamSource) :
    (videoStreamSources srcs = [] →
      validateStreamSourcesForInitialConversion srcs =
        .error "At least one video stream is required.") ∧
    ((∃ src ∈ srcs, isVideoStreamSource src = true ∧
        src.conversionType = ConversionType.copied) →
      audioStreamSources srcs ≠ [] →
      validateStreamSourcesForInitialConversion srcs =
        .error "All video streams must be converted.") := by
  constructor
  · intro h
    rw [validateStreamSourcesForInitialConversion]
    simp [h]
  · rintro ⟨src, hmem, hvid, hcopied⟩ haudio
    have hv : src ∈ videoStreamSources srcs := by
      rw [videoStreamSources, List.mem_dedup]
      exact List.mem_filter.mpr ⟨hmem, hvid⟩
    have hne : videoStreamSources srcs ≠ [] := by
      intro h0; rw [h0] at hv; exact absurd hv (List.not_mem_nil _)
    have hallfalse : ((videoStreamSources srcs).all
        (fun s => s.conversionType == ConversionType.converted)) = false := by
      rw [List.all_eq_false]
      exact ⟨src, hv, by rw [hcopied]; decide⟩
    rw [validateStreamSourcesForInitialConversion]
    simp [hne, haudio, hallfalse]

/-- Claim C7, witness: with one `COPIED` video source and one audio
source present, validation raises "All video streams must be converted.";
the zero-video branch is exercised by the empty collection. -/
theorem initialSources_validation_messages_witness :
    (validateStreamSourcesForInitialConversion [] =
      .error "At least one video stream is required.") ∧
    (validateStreamSourcesForInitialConversion
      [⟨⟨"a.ts", []⟩, { index := 0, codecType := some "video" }, .copied⟩,
       ⟨⟨"a.ts", []⟩, { index := 1, codecType := some "audio" }, .copied⟩] =
      .error "All video streams must be converted.") :=
  ⟨(initialSources_validation_messages []).1 (by decide),
   (initialSources_validation_messages _).2
     ⟨⟨⟨"a.ts", []⟩, { index := 0, codecType := some "video" }, .copied⟩,
       by simp, by decide, rfl⟩ (by decide)⟩

/-! ## Claim C9 -/

theorem getStreamMd5Cached_hit (hasher : StreamHashKey → String)
    (cache : List (StreamHashKey × String)) (k : StreamHashKey)
    (e : StreamHashKey × String)
    (hf : cache.find? (fun e => e.1 == k) = some e) :
    getStreamMd5Cached hasher cache k = (e.2, cache, 0) := by
  rw [getStreamMd5Cached, hf]

theorem getStreamMd5Cached_miss (hasher : StreamHashKey → String)
    (cache : List (StreamHashKey × String)) (k : StreamHashKey)
    (hf : cache.find? (fun e => e.1 == k) = none) :
    getStreamMd5Cached hasher cache k =
      (hasher k, cache ++ [(k, hasher k)], 1) := by
  rw [getStreamMd5Cached, hf]

/-- Claim C9: calling the cached stream-hash operation a second time with
an identical key returns the same digest, leaves the cache unchanged and
performs no second external hash invocation; calling it with a changed
modification time or size misses the cache and forces a fresh hash
computation. -/
theorem getStreamMd5Cached_idempotent_and_invalidating :
    (∀ (hasher : StreamHashKey → String)
      (cache : List (StreamHashKey × String)) (k : StreamHashKey),
      getStreamMd5Cached hasher (getStreamMd5Cached hasher cache k).2.1 k =
        ((getStreamMd5Cached hasher cache k).1,
         (getStreamMd5Cached hasher cache k).2.1, 0)) ∧
    (∀ (hasher : StreamHashKey → String) (k k' : StreamHashKey),
      k'.mtime ≠ k.mtime ∨ k'.size ≠ k.size →
      (getStreamMd5Cached hasher
        (getStreamMd5Cached hasher [] k).2.1 k').2.2 = 1) := by
  constructor
  · intro hasher cache k
    rcases hf : cache.find? (fun e => e.1 == k) with _ | e
    · rw [getStreamMd5Cached_miss hasher cache k hf]
      have hf2 : (cache ++ [(k, hasher k)]).find? (fun e => e.1 == k) =
          some (k, hasher k) := by
        rw [List.find?_append, hf]
        simp
      rw [getStreamMd5Cached_hit hasher _ k _ hf2]
    · rw [getStreamMd5Cached_hit hasher cache k e hf,
        getStreamMd5Cached_hit hasher cache k e hf]
  · intro hasher k k' hne
    have hkk : (k == k') = false := by
      rcases hne with h | h
      · exact beq_eq_false_iff_ne.mpr (fun he => h (by rw [he]))
      · exact beq_eq_false_iff_ne.mpr (fun he => h (by rw [he]))
    have hc : (getStreamMd5Cached hasher [] k).2.1 = [(k, hasher k)] := by
      rw [getStreamMd5Cached_miss hasher [] k (by rfl)]
      simp
    rw [hc, getStreamMd5Cached_miss hasher _ k' (by simp [List.find?, hkk])]

/-- Claim C9, witness: changing only the modification time of the key
forces a second external hash invocation. -/
theorem getStreamMd5Cached_idempotent_and_invalidating_witness :
    (getStreamMd5Cached (fun _ => "d")
      (getStreamMd5Cached (fun _ => "d") []
        ⟨"p", 0, 1, { index := 0 }⟩).2.1
      ⟨"p", 1, 1, { index := 0 }⟩).2.2 = 1 :=
  getStreamMd5Cached_idempotent_and_invalidating.2 (fun _ => "d")
    ⟨"p", 0, 1, { index := 0 }⟩ ⟨"p", 1, 1, { index := 0 }⟩
    (Or.inl (by decide))

/-! ## Claim C10 -/

/-- Claim C10: when the target `.mp4` output path already exists, the CLI
main command returns success immediately, and its effect trace contains no
pipeline invocation and no file replacement — the only file-writing
actions the command itself performs — so neither the existing output file
nor the input file is modified. -/
theorem cliMain_skips_when_output_exists
    (pipelineOutcome : Except PyError Unit) (tsResolved : String)
    (logFile : Option String) (timestamp : String) :
    (cliMain true pipelineOutcome tsResolved logFile timestamp).1 = .ok () ∧
    (∀ e ∈ (cliMain true pipelineOutcome tsResolved logFile timestamp).2,
      (∀ i o, e ≠ .runPipeline i o) ∧ (∀ s d, e ≠ .replaceFile s d)) := by
  constructor
  · rfl
  · intro e he
    simp only [cliMain, if_true, List.append_assoc, List.cons_append,
      List.nil_append, List.mem_cons, List.not_mem_nil, or_false] at he
    rcases he with h | h | h | h <;> rw [h] <;>
      exact ⟨fun i o => by simp, fun s d => by simp⟩

/-- Claim C10, witness: a concrete invocation with the output present
returns success, and its first effect (the log-file setup) is not a
pipeline invocation. -/
theorem cliMain_skips_when_output_exists_witness :
    (cliMain true (.ok ()) "a.ts" (some "conv.log") "20250101").1 = .ok () ∧
    (∀ i o, CliEffect.setLogfile "conv.log" ≠ .runPipeline i o) :=
  ⟨(cliMain_skips_when_output_exists (.ok ()) "a.ts" (some "conv.log")
      "20250101").1,
   ((cliMain_skips_when_output_exists (.ok ()) "a.ts" (some "conv.log")
      "20250101").2 (CliEffect.setLogfile "conv.log")
     (List.mem_cons_self _ _)).1⟩

/-! ## Claim C1 -/

/-- Claim C1: on an input whose audio stream hashes differently in the
output file, `verify_streams` raises `StreamIntegrityError` — which
subclasses `Exception`, not `RuntimeError` — so the orchestrator's
`except RuntimeError` handler does not catch it: the error propagates and
the repair planner is invoked zero times, not once, whatever the repair
branch would have produced. -/
theorem ts2mp4_integrity_failure_skips_repair :
    (verifyStreamsPlain
        (fun p _ => if p = "in.ts" then "aaa" else "bbb")
        ⟨"in.ts", [{ index := 0, codecType := some "audio", channels := some 2 }]⟩
        ⟨"out.mp4", [{ index := 0, codecType := some "audio", channels := some 2 }]⟩
        "audio" =
      .error ⟨.streamIntegrityError,
        "MD5 hash mismatch for audio stream (input: 0, output: 0)."⟩) ∧
    (∀ repairOutcome : Except PyError Unit,
      ts2mp4VerifyAndRepair
        (fun p _ => if p = "in.ts" then "aaa" else "bbb")
        ⟨"in.ts", [{ index := 0, codecType := some "audio", channels := some 2 }]⟩
        ⟨⟨"out.mp4", [{ index := 0, codecType := some "audio", channels := some 2 }]⟩,
         [⟨⟨"in.ts", [{ index := 0, codecType := some "audio", channels := some 2 }]⟩,
           { index := 0, codecType := some "audio", channels := some 2 },
           .copied⟩]⟩ repairOutcome =
      (.error ⟨.streamIntegrityError,
        "MD5 hash mismatch for audio stream (input: 0, output: 0)."⟩, 0)) :=
  ⟨rfl, fun _ => rfl⟩

/-! ## Claim C5 -/

theorem streamSourceForAudioReEncoding_ok_of_found
    (hasher : String → Stream → Option String) (original : VideoFile)
    (encoded : ConvertedVideoFile) (s m : Stream)
    (hl : dictLookup (originalEncodedStreamMapping encoded) s = some m) :
    ∃ o, streamSourceForAudioReEncoding hasher original encoded s = .ok o := by
  rw [streamSourceForAudioReEncoding, hl]
  dsimp only
  split_ifs <;> exact ⟨_, rfl⟩

theorem buildRepairSourcesLoop_error_of_missing
    (hasher : String → Stream → Option String) (original : VideoFile)
    (encoded : ConvertedVideoFile) (l : List Stream)
    (h : ∃ s ∈ l, dictLookup (originalEncodedStreamMapping encoded) s = none) :
    buildRepairSourcesLoop hasher original encoded l =
      .error ("Encoded file " ++ pathName encoded.path ++
        " is missing a required stream from the original " ++
        pathName original.path ++ ".") := by
  induction l with
  | nil =>
    rcases h with ⟨s, hs, _⟩
    exact absurd hs (List.not_mem_nil s)
  | cons t rest ih =>
    rw [buildRepairSourcesLoop]
    rcases hl : dictLookup (originalEncodedStreamMapping encoded) t with _ | m
    · rw [streamSourceForAudioReEncoding, hl]
    · rcases h with ⟨s, hs, hmiss⟩
      rcases List.mem_cons.mp hs with rfl | hsrest
      · rw [hl] at hmiss
        exact Option.noConfusion hmiss
      · obtain ⟨o, ho⟩ :=
          streamSourceForAudioReEncoding_ok_of_found hasher original encoded
            t m hl
        rw [ho]
        have ihres := ih ⟨s, hsrest, hmiss⟩
        cases o with
        | none => exact ihres
        | some src => rw [ihres]

/-- Claim C5: whenever some valid stream of the original file has no match
in the encoded file's provenance mapping, the repair planner's stream
source builder fails with the explicit "missing a required stream" error
(whose message contains that phrase), `re_encode_mismatched_audio_streams`
propagates it without invoking the transcoder, and so the stream is
neither skipped nor re-encoded. -/
theorem buildRepairSources_missing_stream_error
    (hasher : String → Stream → Option String) (libfdkAvailable : Bool)
    (ffmpegExit : List String → Nat) (probe : String → List Stream)
    (original : VideoFile) (encoded : ConvertedVideoFile)
    (outputFile : String)
    (h : ∃ s ∈ validStreams original,
      dictLookup (originalEncodedStreamMapping encoded) s = none) :
    buildStreamSourcesForAudioReEncoding hasher original encoded =
      .error ("Encoded file " ++ pathName encoded.path ++
        " is missing a required stream from the original " ++
        pathName original.path ++ ".") ∧
    reEncodeMismatchedAudioStreams hasher libfdkAvailable ffmpegExit probe
      original encoded outputFile =
      (.error ("Encoded file " ++ pathName encoded.path ++
        " is missing a required stream from the original " ++
        pathName original.path ++ "."), []) ∧
    (∃ pre post,
      "Encoded file " ++ pathName encoded.path ++
        " is missing a required stream from the original " ++
        pathName original.path ++ "." =
      pre ++ "missing a required stream" ++ post) := by
  have hbuild : buildStreamSourcesForAudioReEncoding hasher original encoded =
      .error ("Encoded file " ++ pathName encoded.path ++
        " is missing a required stream from the original " ++
        pathName original.path ++ ".") := by
    rcases h with ⟨s, hs, hmiss⟩
    have hsort : ∃ s ∈ sortStreamsByIndex (validStreams original),
        dictLookup (originalEncodedStreamMapping encoded) s = none :=
      ⟨s, (List.mem_insertionSort streamIndexLE).mpr hs, hmiss⟩
    rw [buildStreamSourcesForAudioReEncoding,
      buildRepairSourcesLoop_error_of_missing hasher original encoded _ hsort]
  refine ⟨hbuild, ?_, ?_⟩
  · rw [reEncodeMismatchedAudioStreams, hbuild]
  · refine ⟨"Encoded file " ++ pathName encoded.path ++ " is ",
      " from the original " ++ pathName original.path ++ ".", ?_⟩
    have hB : (" is missing a required stream from the original " : String) =
        " is " ++ "missing a required stream" ++ " from the original " := by
      decide
    calc "Encoded file " ++ pathName encoded.path ++
          " is missing a required stream from the original " ++
          pathName original.path ++ "."
        = "Encoded file " ++ pathName encoded.path ++
          (" is " ++ "missing a required stream" ++ " from the original ") ++
          pathName original.path ++ "." := by rw [← hB]
      _ = ("Encoded file " ++ pathName encoded.path ++ " is ") ++
          "missing a required stream" ++
          (" from the original " ++ pathName original.path ++ ".") := by
          simp only [String.append_assoc]

/-- Claim C5, witness: an encoded file whose provenance lacks the
original's only valid audio stream makes the builder fail with the
"missing a required stream" error. -/
theorem buildRepairSources_missing_stream_error_witness :
    buildStreamSourcesForAudioReEncoding (fun _ _ => some "h")
      ⟨"in.ts", [{ index := 0, codecType := some "audio", channels := some 2 }]⟩
      ⟨⟨"out.mp4", []⟩, []⟩ =
      .error ("Encoded file " ++ pathName "out.mp4" ++
        " is missing a required stream from the original " ++
        pathName "in.ts" ++ ".") :=
  (buildRepairSources_missing_stream_error (fun _ _ => some "h") false
    (fun _ => 0) (fun _ => []) 
    ⟨"in.ts", [{ index := 0, codecType := some "audio", channels := some 2 }]⟩
    ⟨⟨"out.mp4", []⟩, []⟩ "tmp.mp4"
    ⟨{ index := 0, codecType := some "audio", channels := some 2 },
      by decide, by decide⟩).1

/-! ## Claim C6 -/

/-- Claim C6, counterexample: the transformation-kind type does not have
three values — any three values of `ConversionType` collide — and on a
concrete repair plan with one mismatched audio stream the re-encoded
stream is tagged `CONVERTED` (there is no `RE_ENCODED` value). -/
theorem conversionType_not_three_valued :
    (∀ a b c : ConversionType, a = b ∨ a = c ∨ b = c) ∧
    buildStreamSourcesForAudioReEncoding (fun p _ => some p)
      ⟨"in.ts", [{ index := 0, codecType := some "video" },
        { index := 1, codecType := some "audio", channels := some 2 }]⟩
      ⟨⟨"out.mp4", [{ index := 0, codecType := some "video" },
        { index := 1, codecType := some "audio", channels := some 2 }]⟩,
       [⟨⟨"in.ts", [{ index := 0, codecType := some "video" },
            { index := 1, codecType := some "audio", channels := some 2 }]⟩,
          { index := 0, codecType := some "video" }, .converted⟩,
        ⟨⟨"in.ts", [{ index := 0, codecType := some "video" },
            { index := 1, codecType := some "audio", channels := some 2 }]⟩,
          { index := 1, codecType := some "audio", channels := some 2 },
          .copied⟩]⟩ =
      .ok [⟨⟨"out.mp4", [{ index := 0, codecType := some "video" },
              { index := 1, codecType := some "audio", channels := some 2 }]⟩,
            { index := 0, codecType := some "video" }, .copied⟩,
           ⟨⟨"in.ts", [{ index := 0, codecType := some "video" },
              { index := 1, codecType := some "audio", channels := some 2 }]⟩,
            { index := 1, codecType := some "audio", channels := some 2 },
            .converted⟩] :=
  ⟨by decide, by rfl⟩

/-- Claim C6, amended: the transformation-kind type is a closed
enumeration with exactly the two values `CONVERTED` and `COPIED`; an audio
stream whose hashes mismatch is re-encoded from the original and tagged
`CONVERTED` by the repair planner — the same value the initial pass
assigns to its transcoded video streams, so the tag alone does not
distinguish first-pass transcoding from corrective re-encoding. -/
theorem conversionType_two_valued_repair_tags_converted :
    (∀ c : ConversionType, c = .converted ∨ c = .copied) ∧
    (∀ (hasher : String → Stream → Option String) (original : VideoFile)
        (encoded : ConvertedVideoFile) (s m : Stream),
      s.codecType = some "audio" →
      dictLookup (originalEncodedStreamMapping encoded) s = some m →
      compareStreamHashes hasher original encoded.toVideoFile s m = false →
      streamSourceForAudioReEncoding hasher original encoded s =
        .ok (some ⟨original, s, .converted⟩)) ∧
    (∀ s : Stream, s.codecType = some "video" →
      initialConversionTag s = .converted) := by
  refine ⟨fun c => by cases c <;> simp, ?_, ?_⟩
  · intro hasher original encoded s m hc hl hcmp
    rw [streamSourceForAudioReEncoding, hl]
    dsimp only
    rw [hc, hcmp]
    rfl
  · intro s hc
    rw [initialConversionTag, hc]
    rfl

/-- Claim C6, witness: the amended theorem applied to the concrete
mismatched audio stream of the counterexample scenario. -/
theorem conversionType_two_valued_repair_tags_converted_witness :
    streamSourceForAudioReEncoding (fun p _ => some p)
      ⟨"in.ts", [{ index := 1, codecType := some "audio", channels := some 2 }]⟩
      ⟨⟨"out.mp4", [{ index := 1, codecType := some "audio", channels := some 2 }]⟩,
       [⟨⟨"in.ts", [{ index := 1, codecType := some "audio", channels := some 2 }]⟩,
          { index := 1, codecType := some "audio", channels := some 2 },
          .copied⟩]⟩
      { index := 1, codecType := some "audio", channels := some 2 } =
      .ok (some ⟨⟨"in.ts",
        [{ index := 1, codecType := some "audio", channels := some 2 }]⟩,
        { index := 1, codecType := some "audio", channels := some 2 },
        .converted⟩) :=
  conversionType_two_valued_repair_tags_converted.2.1 (fun p _ => some p)
    ⟨"in.ts", [{ index := 1, codecType := some "audio", channels := some 2 }]⟩
    ⟨⟨"out.mp4", [{ index := 1, codecType := some "audio", channels := some 2 }]⟩,
     [⟨⟨"in.ts", [{ index := 1, codecType := some "audio", channels := some 2 }]⟩,
        { index := 1, codecType := some "audio", channels := some 2 },
        .copied⟩]⟩
    { index := 1, codecType := some "audio", channels := some 2 }
    { index := 1, codecType := some "audio", channels := some 2 }
    rfl (by rfl) (by rfl)

/-! ## Claim C4 -/

theorem streamSourceForAudioReEncoding_result_cases
    (hasher : String → Stream → Option String) (original : VideoFile)
    (encoded : ConvertedVideoFile) (s m : Stream)
    (hl : dictLookup (originalEncodedStreamMapping encoded) s = some m) :
    streamSourceForAudioReEncoding hasher original encoded s =
        .ok (some ⟨encoded.toVideoFile, m, .copied⟩) ∨
    (streamSourceForAudioReEncoding hasher original encoded s =
        .ok (some ⟨original, s, .converted⟩) ∧
      s.codecType = some "audio" ∧
      compareStreamHashes hasher original encoded.toVideoFile s m = false) ∨
    streamSourceForAudioReEncoding hasher original encoded s = .ok none := by
  rw [streamSourceForAudioReEncoding, hl]
  dsimp only
  by_cases hv : (s.codecType == some "video") = true
  · rw [if_pos hv]
    exact Or.inl rfl
  · rw [if_neg hv]
    by_cases ha : (s.codecType == some "audio") = true
    · rw [if_pos ha]
      by_cases hcmp : compareStreamHashes hasher original encoded.toVideoFile
          s m = true
      · rw [if_pos hcmp]
        exact Or.inl rfl
      · rw [if_neg hcmp]
        exact Or.inr (Or.inl ⟨rfl, by simpa using ha,
          Bool.eq_false_iff.mpr hcmp⟩)
    · rw [if_neg ha]
      exact Or.inr (Or.inr rfl)

theorem buildRepairSourcesLoop_all_copied
    (hasher : String → Stream → Option String) (original : VideoFile)
    (encoded : ConvertedVideoFile) (l : List Stream)
    (hmatch : ∀ s ∈ l, ∃ m,
      dictLookup (originalEncodedStreamMapping encoded) s = some m ∧
      (s.codecType = some "audio" →
        compareStreamHashes hasher original encoded.toVideoFile s m = true)) :
    ∀ srcs, buildRepairSourcesLoop hasher original encoded l = .ok srcs →
      ∀ src ∈ srcs, src.conversionType = .copied := by
  induction l with
  | nil =>
    intro srcs h src hsrc
    rw [buildRepairSourcesLoop] at h
    cases ((Except.ok.injEq _ _).mp h).symm ▸ hsrc
  | cons t rest ih =>
    intro srcs h src hsrc
    obtain ⟨m, hl, hcmp⟩ := hmatch t (List.mem_cons_self t rest)
    have hrest := fun s hs => hmatch s (List.mem_cons_of_mem t hs)
    rw [buildRepairSourcesLoop] at h
    rcases streamSourceForAudioReEncoding_result_cases hasher original encoded
        t m hl with hsf | ⟨hsf, hta, hfalse⟩ | hsf
    · rw [hsf] at h
      dsimp only at h
      rcases hrec : buildRepairSourcesLoop hasher original encoded rest
          with e | srcs0
      · rw [hrec] at h
        exact Except.noConfusion h
      · rw [hrec] at h
        dsimp only at h
        have hsrcs : ⟨encoded.toVideoFile, m, ConversionType.copied⟩ :: srcs0 =
            srcs := (Except.ok.injEq _ _).mp h
        rw [← hsrcs] at hsrc
        rcases List.mem_cons.mp hsrc with rfl | hmem
        · rfl
        · exact ih hrest srcs0 hrec src hmem
    · rw [hcmp hta] at hfalse
      exact Bool.noConfusion hfalse
    · rw [hsf] at h
      dsimp only at h
      exact ih hrest srcs h src hsrc

/-- Claim C4: when every valid stream of the original has a match in the
encoded file's provenance mapping and every valid audio stream's content
hash matches its encoded counterpart, the repair planner
(`re_encode_mismatched_audio_streams`) returns NONE having performed no
transcoder invocation, so the first-pass output file is left unchanged. -/
theorem reEncode_returns_none_when_all_hashes_match
    (hasher : String → Stream → Option String) (libfdkAvailable : Bool)
    (ffmpegExit : List String → Nat) (probe : String → List Stream)
    (original : VideoFile) (encoded : ConvertedVideoFile)
    (outputFile : String) (srcs : List StreamSource)
    (hmatch : ∀ s ∈ validStreams original, ∃ m,
      dictLookup (originalEncodedStreamMapping encoded) s = some m ∧
      (s.codecType = some "audio" →
        compareStreamHashes hasher original encoded.toVideoFile s m = true))
    (hbuild : buildStreamSourcesForAudioReEncoding hasher original encoded =
      .ok srcs) :
    reEncodeMismatchedAudioStreams hasher libfdkAvailable ffmpegExit probe
      original encoded outputFile = (.ok none, []) := by
  have hmatch' : ∀ s ∈ sortStreamsByIndex (validStreams original), ∃ m,
      dictLookup (originalEncodedStreamMapping encoded) s = some m ∧
      (s.codecType = some "audio" →
        compareStreamHashes hasher original encoded.toVideoFile s m = true) :=
    fun s hs => hmatch s ((List.mem_insertionSort streamIndexLE).mp hs)
  rw [buildStreamSourcesForAudioReEncoding] at hbuild
  rcases hloop : buildRepairSourcesLoop hasher original encoded
      (sortStreamsByIndex (validStreams original)) with e | srcs'
  · rw [hloop] at hbuild
    exact Except.noConfusion hbuild
  · rw [hloop] at hbuild
    dsimp only at hbuild
    rcases hval : validateStreamSourcesForAudioReEncoding srcs' with e | u
    · rw [hval] at hbuild
      exact Except.noConfusion hbuild
    · have hall := buildRepairSourcesLoop_all_copied hasher original encoded
        _ hmatch' srcs' hloop
      have hany : (srcs'.any
          (fun s => s.conversionType == ConversionType.converted)) = false := by
        rw [List.any_eq_false]
        intro src hsrc
        rw [hall src hsrc]
        decide
      rw [reEncodeMismatchedAudioStreams, buildStreamSourcesForAudioReEncoding,
        hloop]
      dsimp only
      rw [hval]
      dsimp only
      rw [hany]
      rfl

/-- Claim C4, witness: a concrete original/encoded pair whose only audio
stream hashes identically on both sides makes the repair planner return
NONE with an empty effect trace. -/
theorem reEncode_returns_none_when_all_hashes_match_witness :
    reEncodeMismatchedAudioStreams (fun _ _ => some "h") false (fun _ => 0)
      (fun _ => [])
      ⟨"in.ts", [{ index := 0, codecType := some "video" },
        { index := 1, codecType := some "audio", channels := some 2 }]⟩
      ⟨⟨"out.mp4", [{ index := 0, codecType := some "video" },
        { index := 1, codecType := some "audio", channels := some 2 }]⟩,
       [⟨⟨"in.ts", [{ index := 0, codecType := some "video" },
            { index := 1, codecType := some "audio", channels := some 2 }]⟩,
          { index := 0, codecType := some "video" }, .converted⟩,
        ⟨⟨"in.ts", [{ index := 0, codecType := some "video" },
            { index := 1, codecType := some "audio", channels := some 2 }]⟩,
          { index := 1, codecType := some "audio", channels := some 2 },
          .copied⟩]⟩ "tmp.mp4" = (.ok none, []) := by
  refine reEncode_returns_none_when_all_hashes_match (fun _ _ => some "h")
    false (fun _ => 0) (fun _ => []) _ _ "tmp.mp4"
    [⟨⟨"out.mp4", [{ index := 0, codecType := some "video" },
        { index := 1, codecType := some "audio", channels := some 2 }]⟩,
      { index := 0, codecType := some "video" }, .copied⟩,
     ⟨⟨"out.mp4", [{ index := 0, codecType := some "video" },
        { index := 1, codecType := some "audio", channels := some 2 }]⟩,
      { index := 1, codecType := some "audio", channels := some 2 },
      .copied⟩] ?_ (by rfl)
  intro s hs
  have hvs : validStreams
      ⟨"in.ts", [{ index := 0, codecType := some "video" },
        { index := 1, codecType := some "audio", channels := some 2 }]⟩ =
      [{ index := 0, codecType := some "video" },
       { index := 1, codecType := some "audio", channels := some 2 }] := rfl
  rw [hvs] at hs
  rcases List.mem_cons.mp hs with rfl | hs2
  · exact ⟨{ index := 0, codecType := some "video" }, rfl,
      fun hcontra => absurd hcontra (by decide)⟩
  · rcases List.mem_cons.mp hs2 with rfl | hs3
    · exact ⟨{ index := 1, codecType := some "audio", channels := some 2 },
        rfl, fun _ => rfl⟩
    · exact absurd hs3 (List.not_mem_nil s)

/-! ## Claim C8 -/

theorem digitChar_isDigit (n : Nat) (h : n < 10) :
    (Nat.digitChar n).isDigit = true := by
  interval_cases n <;> decide

theorem toDigitsCore_digits (f : Nat) (n : Nat) (ds : List Char)
    (hds : ∀ c ∈ ds, c.isDigit = true) :
    ∀ c ∈ Nat.toDigitsCore 10 f n ds, c.isDigit = true := by
  induction f generalizing n ds with
  | zero => simpa [Nat.toDigitsCore] using hds
  | succ f ih =>
    rw [Nat.toDigitsCore]
    split
    · intro c hc
      rcases List.mem_cons.mp hc with h1 | h1
      · subst h1
        exact digitChar_isDigit _ (Nat.mod_lt _ (by omega))
      · exact hds c h1
    · intro c hc
      refine ih _ _ ?_ c hc
      intro c2 hc2
      rcases List.mem_cons.mp hc2 with h1 | h1
      · subst h1
        exact digitChar_isDigit _ (Nat.mod_lt _ (by omega))
      · exact hds c2 h1

theorem natRepr_chars_digits (n : Nat) :
    ∀ c ∈ (Nat.repr n).data, c.isDigit = true := by
  intro c hc
  exact toDigitsCore_digits _ _ _ (by simp) c hc

theorem natRepr_ne_dashMap (n : Nat) : Nat.repr n ≠ "-map" := by
  intro h
  have hd := natRepr_chars_digits n
  rw [h] at hd
  exact absurd (hd '-' (by decide)) (by decide)

theorem append_ne_dashMap_of_second_char (p x : String) (c : Char)
    (cs : List Char) (hp : p.data = '-' :: c :: cs) (hc : c ≠ 'm') :
    p ++ x ≠ "-map" := by
  intro h
  have hd := congrArg String.data h
  rw [String.data_append, hp] at hd
  have : c = 'm' := by
    have := (List.cons.injEq _ _ _ _).mp hd
    exact ((List.cons.injEq _ _ _ _).mp this.2).1
  exact hc this

theorem collectMapValues_cons_ne (a : String) (l : List String)
    (h : a ≠ "-map") : collectMapValues (a :: l) = collectMapValues l := by
  cases l with
  | nil => rfl
  | cons y rest => rw [collectMapValues, if_neg h]

theorem collectMapValues_map_cons (v : String) (l : List String) :
    collectMapValues ("-map" :: v :: l) = v :: collectMapValues l := by
  rw [collectMapValues, if_pos rfl]

theorem collectMapValues_append_skip (A B : List String)
    (h : ∀ a ∈ A, a ≠ "-map") :
    collectMapValues (A ++ B) = collectMapValues B := by
  induction A with
  | nil => rfl
  | cons a rest ih =>
    rw [List.cons_append,
      collectMapValues_cons_ne a _ (h a (List.mem_cons_self a rest)),
      ih (fun x hx => h x (List.mem_cons_of_mem a hx))]

theorem buildAudioConvertArgs_codec_aac (libfdkAvailable : Bool)
    (src : StreamSource) (i : Nat) (cargs : List String)
    (hb : buildAudioConvertArgs libfdkAvailable src i = .ok cargs) :
    src.sourceStream.codecName = some "aac" := by
  rw [buildAudioConvertArgs] at hb
  split at hb
  · assumption
  · exact Except.noConfusion hb

theorem buildAudioConvertArgs_no_dashMap (libfdkAvailable : Bool)
    (src : StreamSource) (i : Nat) (cargs : List String)
    (hb : buildAudioConvertArgs libfdkAvailable src i = .ok cargs)
    (hprof : src.sourceStream.profile ≠ some "-map") :
    ∀ x ∈ cargs, x ≠ "-map" := by
  have hcn := buildAudioConvertArgs_codec_aac libfdkAvailable src i cargs hb
  rw [buildAudioConvertArgs, hcn] at hb
  dsimp only at hb
  have hargs := (Except.ok.injEq _ _).mp hb
  intro x hx
  rw [← hargs] at hx
  simp only [List.mem_append, List.mem_cons, List.not_mem_nil, or_false] at hx
  rcases hx with ((((hx | hx) | hx) | hx) | hx) | hx | hx
  · rcases hx with hx | hx
    · rw [hx]
      exact append_ne_dashMap_of_second_char "-codec:" _ 'c'
        ['o', 'd', 'e', 'c', ':'] (by decide) (by decide)
    · rw [hx]
      split <;> decide
  · rcases hsr : src.sourceStream.sampleRate with _ | r <;> rw [hsr] at hx
    · exact absurd hx (List.not_mem_nil x)
    · rcases List.mem_cons.mp hx with hx2 | hx2
      · rw [hx2]
        exact append_ne_dashMap_of_second_char "-ar:" _ 'a' ['r', ':']
          (by decide) (by decide)
      · rcases List.mem_cons.mp hx2 with hx3 | hx3
        · rw [hx3]
          exact natRepr_ne_dashMap r
        · exact absurd hx3 (List.not_mem_nil x)
  · rcases hch : src.sourceStream.channels with _ | ch <;> rw [hch] at hx
    · exact absurd hx (List.not_mem_nil x)
    · rcases List.mem_cons.mp hx with hx2 | hx2
      · rw [hx2]
        exact append_ne_dashMap_of_second_char "-ac:" _ 'a' ['c', ':']
          (by decide) (by decide)
      · rcases List.mem_cons.mp hx2 with hx3 | hx3
        · rw [hx3]
          exact natRepr_ne_dashMap ch
        · exact absurd hx3 (List.not_mem_nil x)
  · rcases hpr : src.sourceStream.profile with _ | p <;> rw [hpr] at hx
    · exact absurd hx (List.not_mem_nil x)
    · rcases List.mem_cons.mp hx with hx2 | hx2
      · rw [hx2]
        exact append_ne_dashMap_of_second_char "-profile:" _ 'p'
          ['r', 'o', 'f', 'i', 'l', 'e', ':'] (by decide) (by decide)
      · rcases List.mem_cons.mp hx2 with hx3 | hx3
        · rw [hx3]
          split
          · decide
          · intro hcontra
            rw [hcontra] at hpr
            exact hprof hpr
        · exact absurd hx3 (List.not_mem_nil x)
  · rcases hbr : src.sourceStream.bitRate with _ | b <;> rw [hbr] at hx
    · exact absurd hx (List.not_mem_nil x)
    · rcases List.mem_cons.mp hx with hx2 | hx2
      · rw [hx2]
        exact append_ne_dashMap_of_second_char "-b:" _ 'b' [':']
          (by decide) (by decide)
      · rcases List.mem_cons.mp hx2 with hx3 | hx3
        · rw [hx3]
          exact natRepr_ne_dashMap b
        · exact absurd hx3 (List.not_mem_nil x)
  · rw [hx]
    exact append_ne_dashMap_of_second_char "-bsf:" _ 'b' ['s', 'f', ':']
      (by decide) (by decide)
  · rw [hx]
    decide

theorem orderedKeys_go_subset (seen : List String) (l : List String) :
    ∀ x ∈ orderedKeys.go seen l, x ∈ l := by
  induction l generalizing seen with
  | nil => intro x hx; exact absurd hx (List.not_mem_nil x)
  | cons a rest ih =>
    intro x hx
    rw [orderedKeys.go] at hx
    split at hx
    · exact List.mem_cons_of_mem a (ih seen x hx)
    · rcases List.mem_cons.mp hx with rfl | hx2
      · exact List.mem_cons_self x rest
      · exact List.mem_cons_of_mem a (ih (a :: seen) x hx2)

theorem orderedKeys_subset (l : List String) : ∀ x ∈ orderedKeys l, x ∈ l :=
  orderedKeys_go_subset [] l

theorem buildRepairStreamArgs_collectMap (libfdkAvailable : Bool)
    (inputFiles : List String) (srcs : List StreamSource) :
    ∀ (i : Nat) (args T : List String),
      buildRepairStreamArgs libfdkAvailable inputFiles srcs i = .ok args →
      (∀ src ∈ srcs, src.sourceStream.profile ≠ some "-map") →
      collectMapValues (args ++ T) =
        srcs.map (fun src =>
          Nat.repr (inputFiles.indexOf src.sourceVideoFile.path) ++ ":" ++
            Nat.repr src.sourceStream.index) ++ collectMapValues T := by
  induction srcs with
  | nil =>
    intro i args T hb _
    rw [buildRepairStreamArgs] at hb
    rw [← (Except.ok.injEq _ _).mp hb]
    simp
  | cons src rest ih =>
    intro i args T hb hprof
    rw [buildRepairStreamArgs] at hb
    rcases hc : (if (src.conversionType == ConversionType.copied) = true then
        Except.ok ["-codec:" ++ Nat.repr i, "copy"]
      else if (src.sourceStream.codecType == some "audio") = true then
        buildAudioConvertArgs libfdkAvailable src i
      else
        .error ("Invalid conversion requested for stream type '" ++
          (src.sourceStream.codecType.getD "None") ++ "'.")) with e | cargs
    · rw [hc] at hb
      exact Except.noConfusion hb
    · rw [hc] at hb
      dsimp only at hb
      rcases hrec : buildRepairStreamArgs libfdkAvailable inputFiles rest
          (i + 1) with e | rargs
      · rw [hrec] at hb
        exact Except.noConfusion hb
      · rw [hrec] at hb
        dsimp only at hb
        have hcargs : ∀ x ∈ cargs, x ≠ "-map" := by
          rcases hcopied : (src.conversionType == ConversionType.copied) with _ | _
          · rw [hcopied] at hc
            rw [if_neg (by simp)] at hc
            split at hc
            · exact buildAudioConvertArgs_no_dashMap libfdkAvailable src i
                cargs hc (hprof src (List.mem_cons_self src rest))
            · exact Except.noConfusion hc
          · rw [hcopied, if_pos rfl] at hc
            have := (Except.ok.injEq _ _).mp hc
            rw [← this]
            intro x hx
            rcases List.mem_cons.mp hx with rfl | hx2
            · exact append_ne_dashMap_of_second_char "-codec:" _ 'c'
                ['o', 'd', 'e', 'c', ':'] (by decide) (by decide)
            · rcases List.mem_cons.mp hx2 with rfl | hx3
              · decide
              · exact absurd hx3 (List.not_mem_nil x)
        rw [← (Except.ok.injEq _ _).mp hb]
        have hshape :
            ((["-map", Nat.repr (inputFiles.indexOf src.sourceVideoFile.path)
                ++ ":" ++ Nat.repr src.sourceStream.index] ++ cargs ++ rargs)
              ++ T) =
            "-map" :: ((Nat.repr (inputFiles.indexOf src.sourceVideoFile.path)
                ++ ":" ++ Nat.repr src.sourceStream.index) ::
              (cargs ++ (rargs ++ T))) := by
          simp [List.append_assoc]
        rw [hshape, collectMapValues_map_cons,
          collectMapValues_append_skip _ _ hcargs,
          ih (i + 1) rargs T hrec
            (fun s hs => hprof s (List.mem_cons_of_mem src hs))]
        simp

theorem collectMapValues_initial_maps (srcs : List StreamSource)
    (T : List String) :
    collectMapValues ((srcs.flatMap (fun s =>
        ["-map", "0:" ++ Nat.repr s.sourceStream.index])) ++ T) =
      srcs.map (fun s => "0:" ++ Nat.repr s.sourceStream.index) ++
        collectMapValues T := by
  induction srcs with
  | nil => simp
  | cons src rest ih =>
    rw [List.flatMap_cons]
    have hshape :
        ((["-map", "0:" ++ Nat.repr src.sourceStream.index] ++
          rest.flatMap (fun s =>
            ["-map", "0:" ++ Nat.repr s.sourceStream.index])) ++ T) =
        "-map" :: (("0:" ++ Nat.repr src.sourceStream.index) ::
          ((rest.flatMap (fun s =>
            ["-map", "0:" ++ Nat.repr s.sourceStream.index])) ++ T)) := by
      simp
    rw [hshape, collectMapValues_map_cons, ih]
    simp

/-- Claim C8: in both transcoder argument builders, the Nth `-map` option
value, in order of appearance, is exactly
`<input_index>:<source_stream_index>` for the Nth entry of the stream
source collection: `0:<index>` for the single-input initial conversion,
and `<position of the source's file among the unique input files>:<index>`
for the repair pass.  The hypotheses exclude the degenerate inputs in
which a path, preset or profile string is itself the literal `"-map"`. -/
theorem map_args_positional_correspondence :
    (∀ (srcs : List StreamSource) (outputPath : String) (crf : Nat)
        (preset : String),
      preset ≠ "-map" →
      (∀ src ∈ srcs, src.sourceVideoFile.path ≠ "-map") →
      collectMapValues
          (buildFfmpegArgsForInitialConversion srcs outputPath crf preset) =
        srcs.map (fun s => "0:" ++ Nat.repr s.sourceStream.index)) ∧
    (∀ (libfdkAvailable : Bool) (srcs : List StreamSource)
        (outputPath : String) (args : List String),
      buildFfmpegArgsForAudioReEncoding libfdkAvailable srcs outputPath =
        .ok args →
      (∀ src ∈ srcs, src.sourceStream.profile ≠ some "-map") →
      (∀ src ∈ srcs, src.sourceVideoFile.path ≠ "-map") →
      collectMapValues args =
        srcs.map (fun src =>
          Nat.repr ((orderedKeys (srcs.map (fun s => s.sourceVideoFile.path))).indexOf
              src.sourceVideoFile.path) ++ ":" ++
            Nat.repr src.sourceStream.index)) := by
  constructor
  · intro srcs outputPath crf preset hpreset hpaths
    have hin : ((srcs.head?.map (fun s => s.sourceVideoFile.path)).getD "") ≠
        "-map" := by
      cases srcs with
      | nil => decide
      | cons s rest =>
        exact hpaths s (List.mem_cons_self s rest)
    rw [buildFfmpegArgsForInitialConversion, List.append_assoc,
      collectMapValues_append_skip _ _ (by
        intro a ha
        simp only [List.mem_cons, List.not_mem_nil, or_false] at ha
        rcases ha with rfl | rfl | rfl | rfl | rfl | rfl | rfl
        · decide
        · decide
        · decide
        · decide
        · decide
        · decide
        · exact hin),
      collectMapValues_initial_maps]
    have htail : collectMapValues ["-f", "mp4", "-vsync", "1", "-vf", "bwdif",
        "-codec:v", "libx265", "-crf", Nat.repr crf, "-preset", preset,
        "-codec:a", "copy", "-bsf:a", "aac_adtstoasc", outputPath] = [] := by
      rw [collectMapValues_cons_ne _ _ (by decide),
        collectMapValues_cons_ne _ _ (by decide),
        collectMapValues_cons_ne _ _ (by decide),
        collectMapValues_cons_ne _ _ (by decide),
        collectMapValues_cons_ne _ _ (by decide),
        collectMapValues_cons_ne _ _ (by decide),
        collectMapValues_cons_ne _ _ (by decide),
        collectMapValues_cons_ne _ _ (by decide),
        collectMapValues_cons_ne _ _ (by decide),
        collectMapValues_cons_ne _ _ (natRepr_ne_dashMap crf),
        collectMapValues_cons_ne _ _ (by decide),
        collectMapValues_cons_ne _ _ hpreset,
        collectMapValues_cons_ne _ _ (by decide),
        collectMapValues_cons_ne _ _ (by decide),
        collectMapValues_cons_ne _ _ (by decide),
        collectMapValues_cons_ne _ _ (by decide)]
      rfl
    rw [htail]
    simp
  · intro libfdkAvailable srcs outputPath args hb hprof hpaths
    rw [buildFfmpegArgsForAudioReEncoding] at hb
    rcases hsa : buildRepairStreamArgs libfdkAvailable
        (orderedKeys (srcs.map (fun s => s.sourceVideoFile.path))) srcs 0
        with e | streamArgs
    · rw [hsa] at hb
      exact Except.noConfusion hb
    · rw [hsa] at hb
      dsimp only at hb
      rw [← (Except.ok.injEq _ _).mp hb]
      rw [List.append_assoc, List.append_assoc,
        collectMapValues_append_skip _ _ (by
          intro a ha
          simp only [List.mem_cons, List.not_mem_nil, or_false] at ha
          rcases ha with rfl | rfl | rfl | rfl | rfl <;> decide),
        collectMapValues_append_skip _ _ (by
          intro a ha
          rw [List.mem_flatMap] at ha
          rcases ha with ⟨f, hf, hmem⟩
          rcases List.mem_cons.mp hmem with rfl | hmem2
          · decide
          · rcases List.mem_cons.mp hmem2 with hfeq | hmem3
            · have hfl := orderedKeys_subset _ f hf
              rw [List.mem_map] at hfl
              rcases hfl with ⟨src, hsrc, hpath⟩
              rw [hfeq, ← hpath]
              exact hpaths src hsrc
            · exact absurd hmem3 (List.not_mem_nil a)),
        buildRepairStreamArgs_collectMap libfdkAvailable _ srcs 0
          streamArgs _ hsa hprof]
      have htail : collectMapValues ["-f", "mp4", outputPath] = [] := by
        rw [collectMapValues_cons_ne _ _ (by decide),
          collectMapValues_cons_ne _ _ (by decide)]
        rfl
      rw [htail]
      simp

/-- Claim C8, witness: a concrete two-stream initial plan and a concrete
repair plan (one stream copied from the encoded file, one re-encoded from
the original), with the `-map` values read off both argument lists. -/
theorem map_args_positional_correspondence_witness :
    collectMapValues (buildFfmpegArgsForInitialConversion
      [⟨⟨"in.ts", []⟩, { index := 0, codecType := some "video" }, .converted⟩,
       ⟨⟨"in.ts", []⟩,
        { index := 3, codecType := some "audio", channels := some 2 },
        .copied⟩] "out.mp4" 22 "slow") =
      ["0:0", "0:3"] ∧
    (∀ args, buildFfmpegArgsForAudioReEncoding false
      [⟨⟨"out.mp4", []⟩, { index := 0, codecType := some "video" }, .copied⟩,
       ⟨⟨"in.ts", []⟩,
        { index := 3, codecType := some "audio", codecName := some "aac", channels := some 2 },
        .converted⟩]
      "tmp.mp4" = .ok args →
      collectMapValues args = ["0:0", "1:3"]) := by
  constructor
  · exact map_args_positional_correspondence.1 _ "out.mp4" 22 "slow"
      (by decide) (by
        intro src hsrc
        rcases List.mem_cons.mp hsrc with rfl | h2
        · decide
        · rcases List.mem_cons.mp h2 with rfl | h3
          · decide
          · exact absurd h3 (List.not_mem_nil src))
  · intro args hb
    have := map_args_positional_correspondence.2 false _ "tmp.mp4" args hb
      (by
        intro src hsrc
        rcases List.mem_cons.mp hsrc with rfl | h2
        · decide
        · rcases List.mem_cons.mp h2 with rfl | h3
          · decide
          · exact absurd h3 (List.not_mem_nil src))
      (by
        intro src hsrc
        rcases List.mem_cons.mp hsrc with rfl | h2
        · decide
        · rcases List.mem_cons.mp h2 with rfl | h3
          · decide
          · exact absurd h3 (List.not_mem_nil src))
    rw [this]
    rfl

end Ts2mp4
